import Mathlib

/-!
Shallow embedding of `src/main.py` (LINE drive bot): session manager,
retry wrapper, batch analyzer, Drive taxonomy resolver, archiver and
calendar event materializer, with theorems settling the spec claims.

Python strings are modelled as `List Char`; Python dicts of user sessions
as association lists; external services (Gemini, Drive, Calendar) as
explicit outcome parameters / state passing.
-/

namespace LineDriveBot

abbrev Chars := List Char

/-- ASCII whitespace, as stripped by Python `str.strip()` on the inputs
that occur here. -/
def isSpaceChar (c : Char) : Bool :=
  c = ' ' || c = '\t' || c = '\n' || c = '\r' || c = '\x0b' || c = '\x0c'

/-- Python `str.strip()`. -/
def pyStrip (l : Chars) : Chars :=
  ((l.dropWhile isSpaceChar).reverse.dropWhile isSpaceChar).reverse

/-- Python `str.lower()` (ASCII case folding; CJK characters are fixed). -/
def pyLower (l : Chars) : Chars := l.map Char.toLower

/-- Python `text.split(" ", 1)`: the part before the first space and,
when a space exists, the remainder after it (kept verbatim). -/
def splitSpace1 : Chars → Chars × Option Chars
  | [] => ([], none)
  | c :: rest =>
    if c = ' ' then ([], some rest)
    else
      let p := splitSpace1 rest
      (c :: p.1, p.2)

/-- Python `"\n".join`-style joining. -/
def joinWith (sep : Chars) : List Chars → Chars
  | [] => []
  | [x] => x
  | x :: y :: rest => x ++ sep ++ joinWith sep (y :: rest)

/-- Python `pat in s` / substring test. -/
def hasSub (needle : Chars) : Chars → Bool
  | [] => needle.isEmpty
  | c :: t => needle.isPrefixOf (c :: t) || hasSub needle t

/-- Split at the first occurrence of `pat`: returns the part before it and
the part after it (the occurrence removed), or `none` if `pat` does not
occur. -/
def splitSub? (pat : Chars) : Chars → Option (Chars × Chars)
  | [] => if pat.isEmpty then some ([], []) else none
  | c :: t =>
    if pat.isPrefixOf (c :: t) then some ([], (c :: t).drop pat.length)
    else
      match splitSub? pat t with
      | some (pre, post) => some (c :: pre, post)
      | none => none

/-- The code-fence marker. -/
def fenceMarker : Chars := "```".data

/-- Model of `clean_json_text` (main.py:123-129): strip; if a code fence occurs,
take the first fenced block — dropping an immediately following `json`
language tag — and strip it; otherwise (or if the fence never closes)
keep the stripped text. -/
def clean_json_text (text : Chars) : Chars :=
  let t := pyStrip text
  if hasSub fenceMarker t then
    match splitSub? fenceMarker t with
    | some (_, rest) =>
      let rest2 := if ("json".data).isPrefixOf rest then rest.drop 4 else rest
      match splitSub? fenceMarker rest2 with
      | some (inner, _) => pyStrip inner
      | none => t
    | none => t
  else t

/-! ## Session manager (main.py:68-91) -/

structure Session where
  active : Bool
  context : Chars
  texts : List Chars
  files : List Chars
deriving DecidableEq

abbrev Sessions := List (Nat × Session)

/-- Model of `start_session` (main.py:70-77): `user_sessions[user_id] = {...}`. -/
def start_session (sessions : Sessions) (uid : Nat) (ctx : Chars) : Sessions :=
  if (sessions.lookup uid).isSome then
    sessions.map (fun e => if e.1 = uid then (e.1, ⟨true, ctx, [], []⟩) else e)
  else sessions ++ [(uid, ⟨true, ctx, [], []⟩)]

/-- Model of `get_session` (main.py:79-80). -/
def get_session (sessions : Sessions) (uid : Nat) : Option Session :=
  sessions.lookup uid

/-- Appending one text / file path to a session, with Python truthiness:
`if text:` drops `None` and the empty string, likewise `if file_path:`. -/
def appendContent (s : Session) (text fp : Option Chars) : Session :=
  { s with
    texts := s.texts ++ (match text with
      | some t => if t.isEmpty then [] else [t]
      | none => [])
    files := s.files ++ (match fp with
      | some p => if p.isEmpty then [] else [p]
      | none => []) }

/-- Model of `add_to_session` (main.py:82-86): `False` (no mutation) when the user
has no session; otherwise append truthy text / file path and return
`True`. -/
def add_to_session (sessions : Sessions) (uid : Nat) (text fp : Option Chars) :
    Bool × Sessions :=
  if (sessions.lookup uid).isSome then
    (true, sessions.map (fun e => if e.1 = uid then (e.1, appendContent e.2 text fp) else e))
  else (false, sessions)

/-- Model of `end_session` (main.py:88-91): `user_sessions.pop(user_id)`. -/
def end_session (sessions : Sessions) (uid : Nat) : Option Session × Sessions :=
  match sessions.lookup uid with
  | some s => (some s, sessions.filter (fun e => !(e.1 == uid)))
  | none => (none, sessions)

/-! ## Retry wrapper (main.py:114-121)

`retry(func, retries=3, delay=2)`: call `func` up to `retries` times;
return the first success; on each failure log and sleep `delay` seconds;
after exhausting all attempts raise `RuntimeError("All retries failed")`.
The model also returns the total seconds slept. -/

def retryRunAux (f : Nat → Except Chars α) (delay : Nat) :
    Nat → Nat → Nat → Except Chars α × Nat
  | 0, _, slept => (Except.error ("All retries failed".data), slept)
  | n + 1, i, slept =>
    match f i with
    | Except.ok a => (Except.ok a, slept)
    | Except.error _ => retryRunAux f delay n (i + 1) (slept + delay)

def retry (f : Nat → Except Chars α) (retries delay : Nat) : Except Chars α × Nat :=
  retryRunAux f delay retries 0 0

/-! ## Batch analyzer (main.py:135-235) -/

/-- JSON values, as produced by `json.loads`. -/
inductive Json where
  | null
  | bool (b : Bool)
  | num (n : Int)
  | str (s : Chars)
  | arr (elems : List Json)
  | obj (fields : List (Chars × Json))
deriving Inhabited

/-- Whether an object carries a field named `k` (non-objects carry none). -/
def Json.hasField (j : Json) (k : Chars) : Bool :=
  match j with
  | .obj fields => fields.any (fun f => f.1 = k)
  | _ => false

/-- Outcome of the `gemini_model.generate_content` call. -/
inductive GenOutcome where
  | raised
  | blocked
  | output (text : Chars)

/-- The fallback dict built in the `except` branch of
`analyze_batch_content` (main.py:229-235). -/
def fallbackErrorResult (ctx : Chars) : Json :=
  .obj [("source".data, .str ctx),
        ("category".data, .str "錯誤".data),
        ("summary".data, .str "AI 分析失敗，請檢查 Log".data),
        ("tags".data, .arr [.str "error".data]),
        ("calendar_events".data, .arr [])]

/-- The dict returned when the response has no parts (main.py:221). -/
def blockedResult (ctx : Chars) : Json :=
  .obj [("source".data, .str ctx),
        ("category".data, .str "未分類".data),
        ("summary".data, .str "內容被阻擋".data),
        ("tags".data, .arr []),
        ("calendar_events".data, .arr [])]

/-- Model of `analyze_batch_content` (main.py:218-235), abstracted over the
service outcome and over `json.loads` (`parseJson`; a parse failure is
the `json.loads` exception, caught by the same `except`). -/
def analyze_batch_content (parseJson : Chars → Option Json) (ctx : Chars)
    (outcome : GenOutcome) : Json :=
  match outcome with
  | .raised => fallbackErrorResult ctx
  | .blocked => blockedResult ctx
  | .output t =>
    match parseJson (clean_json_text t) with
    | some j => j
    | none => fallbackErrorResult ctx

/-! ## Calendar event materializer (main.py:241-270)

A `try` wraps the whole loop: getting the service, building each event
body (a missing `start_time`/`end_time` key raises) and each insert call.
Any exception is caught, logged and the function returns `0`; the
exception is never re-raised. `svcOk` models `get_calendar_service`
succeeding; `insertOk e` models the body build plus insert for draft `e`
succeeding. -/

/-- Loop body of `add_calendar_events`: `none` if some insertion raised,
otherwise the final count. -/
def insertRun (insertOk : Json → Bool) : List Json → Nat → Option Nat
  | [], c => some c
  | e :: rest, c => if insertOk e then insertRun insertOk rest (c + 1) else none

/-- Model of `add_calendar_events` (main.py:241-270). -/
def add_calendar_events (svcOk : Bool) (insertOk : Json → Bool)
    (events_list : List Json) : Nat :=
  if events_list.isEmpty then 0
  else if !svcOk then 0
  else
    match insertRun insertOk events_list 0 with
    | some c => c
    | none => 0

/-! ## Drive taxonomy resolver (main.py:272-285) -/

structure DriveEntry where
  id : Nat
  name : Chars
  parent : Nat
  isFolder : Bool
  trashed : Bool
deriving DecidableEq

structure DriveState where
  entries : List DriveEntry
  nextId : Nat
deriving DecidableEq

/-- The `files().list` query of `get_or_create_folder` (main.py:273):
non-trashed folders named `name` directly under `parent`. -/
def folderQuery (entries : List DriveEntry) (parentId : Nat) (nm : Chars) :
    List DriveEntry :=
  entries.filter (fun f => f.name == nm && f.isFolder && f.parent == parentId && !f.trashed)

/-- Model of `get_or_create_folder` (main.py:272-280): return the first
match's id if any exist, otherwise create the folder (fresh id) and
return its id. -/
def get_or_create_folder (s : DriveState) (parentId : Nat) (folder_name : Chars) :
    Nat × DriveState :=
  match folderQuery s.entries parentId folder_name with
  | f :: _ => (f.id, s)
  | [] =>
    (s.nextId,
     ⟨s.entries ++ [⟨s.nextId, folder_name, parentId, true, false⟩], s.nextId + 1⟩)

/-- Model of `get_target_folder_id` (main.py:282-285): source folder under
the root, then category folder under the source folder. -/
def get_target_folder_id (s : DriveState) (rootId : Nat)
    (source_name category_name : Chars) : Nat × DriveState :=
  let r1 := get_or_create_folder s rootId source_name
  get_or_create_folder r1.2 r1.1 category_name

/-! ## Archiver (main.py:347-363) -/

/-- Description attached to every upload (main.py:347):
`f"AI摘要: {summary}\n標籤: {', '.join(tags)}"`. -/
def fullDesc (summary : Chars) (tags : List Chars) : Chars :=
  "AI摘要: ".data ++ summary ++ "\n標籤: ".data ++ joinWith ", ".data tags

/-- Transcript file contents written at main.py:352-356: context line,
summary line, a `"-" * 20` separator line, then the buffered texts joined
by newlines. -/
def transcriptContent (ctx summary : Chars) (texts : List Chars) : Chars :=
  "情境：".data ++ ctx ++ "\n".data
    ++ "摘要：".data ++ summary ++ "\n".data
    ++ List.replicate 20 '-' ++ "\n".data
    ++ joinWith "\n".data texts

/-- Name of the transcript file, `f"chat_batch_{int(time.time())}.txt"`. -/
def logFilename (now : Nat) : Chars :=
  "chat_batch_".data ++ (toString now).data ++ ".txt".data

structure UploadAction where
  filename : Chars
  content : Chars
  description : Chars
deriving DecidableEq

/-- Transcript uploads performed by the `if session['texts']:` block
(main.py:350-358): one upload when any text was buffered, none otherwise. -/
def textLogUploads (now : Nat) (ctx summary : Chars) (tags : List Chars)
    (texts : List Chars) : List UploadAction :=
  if texts.isEmpty then []
  else [⟨logFilename now, transcriptContent ctx summary texts, fullDesc summary tags⟩]

/-- Attachment archival loop (main.py:361-363): upload each file then
`os.remove` it; a raising upload propagates out of the loop, leaving the
failing file and every later file on local storage. Returns the files
still on local storage and whether the loop completed. -/
def archiveFiles (uploadOk : Chars → Bool) : List Chars → List Chars × Bool
  | [] => ([], true)
  | f :: rest =>
    if uploadOk f then archiveFiles uploadOk rest else (f :: rest, false)

/-! ## Message handler (main.py:316-402) -/

inductive Cmd where
  | start (ctx : Chars)
  | finish
deriving DecidableEq

/-- Command recognition of `handle_message` (main.py:320-331): strip the
text; `開始`/case-insensitive `start` prefix starts a session, with the
remainder of the first `split(" ", 1)` as context (default `未命名對話`);
`結束`/case-insensitive `end` equality ends one. -/
def parseCmd (raw : Chars) : Option Cmd :=
  let text := pyStrip raw
  if ("開始".data).isPrefixOf text || ("start".data).isPrefixOf (pyLower text) then
    let parts := splitSpace1 text
    some (.start (match parts.2 with
      | some r => r
      | none => "未命名對話".data))
  else if text = "結束".data || pyLower text = "end".data then
    some .finish
  else none

inductive InMsg where
  | txt (s : Chars)
  | img (mid : Nat)
  | doc (mid : Nat)
deriving DecidableEq

inductive Eff where
  | reply (s : Chars)
  | download (path : Chars)
deriving DecidableEq

structure HandleResult where
  sessions : Sessions
  effects : List Eff
  pipeline : Option Session
deriving DecidableEq

/-- Reply sent on a recognized start command (main.py:327). -/
def startReplyText (ctx : Chars) : Chars :=
  "【錄製模式開啟】\n📝 情境：「".data ++ ctx
    ++ "」\n💡 提示：若包含日期行程，將自動加入行事曆。\n💡 提示：若是多人對話，請盡量複製文字貼上以利辨識。".data

/-- Reply sent on `結束` with no active session (main.py:334). -/
def noActiveReplyText : Chars := "目前沒有進行中的錄製。".data

/-- Acknowledgement sent before the end pipeline runs (main.py:337). -/
def processingReplyText (nTexts nFiles : Nat) : Chars :=
  "🤖 處理中...\n訊息：".data ++ (toString nTexts).data ++ " 則\n檔案：".data
    ++ (toString nFiles).data ++ " 個".data

/-- Reminder sent for a non-command text with no active session
(main.py:402). -/
def reminderReplyText : Chars :=
  "請輸入「開始 [名稱]」來啟動模式。\n例如：開始 君君和流星雨的對話".data

/-- Local path an attachment is downloaded to (main.py:391). -/
def tmpPath (mid : Nat) (ext : Chars) : Chars :=
  "/tmp/batch_".data ++ (toString mid).data ++ ".".data ++ ext

/-- Content branch of `handle_message` (main.py:383-402): while recording,
download attachments to `/tmp` and buffer; otherwise reply with the
reminder for a text message and do nothing at all for an attachment. -/
def contentStep (sessions : Sessions) (uid : Nat) (m : InMsg) : HandleResult :=
  match get_session sessions uid with
  | some s =>
    if s.active then
      match m with
      | .txt raw =>
        ⟨(add_to_session sessions uid (some raw) none).2, [], none⟩
      | .img mid =>
        let p := tmpPath mid "jpg".data
        ⟨(add_to_session sessions uid none (some p)).2, [.download p], none⟩
      | .doc mid =>
        let p := tmpPath mid "dat".data
        ⟨(add_to_session sessions uid none (some p)).2, [.download p], none⟩
    else
      match m with
      | .txt _ => ⟨sessions, [.reply reminderReplyText], none⟩
      | _ => ⟨sessions, [], none⟩
  | none =>
    match m with
    | .txt _ => ⟨sessions, [.reply reminderReplyText], none⟩
    | _ => ⟨sessions, [], none⟩

/-- Model of `handle_message` (main.py:316-402), up to the end pipeline
(whose internals — analyzer, taxonomy resolver, archiver, materializer —
are modelled by the functions above and returned here as
`pipeline := some session`). -/
def handle_message (sessions : Sessions) (uid : Nat) (m : InMsg) : HandleResult :=
  match m with
  | .txt raw =>
    match parseCmd raw with
    | some (.start ctx) =>
      ⟨start_session sessions uid ctx, [.reply (startReplyText ctx)], none⟩
    | some .finish =>
      match end_session sessions uid with
      | (none, s2) => ⟨s2, [.reply noActiveReplyText], none⟩
      | (some sess, s2) =>
        ⟨s2, [.reply (processingReplyText sess.texts.length sess.files.length)], some sess⟩
    | none => contentStep sessions uid m
  | _ => contentStep sessions uid m

/-! ## Helper lemmas -/

/-- Running the insertion loop over drafts that all insert cleanly counts
every draft. -/
lemma insertRun_all (insertOk : Json → Bool) :
    ∀ (l : List Json), (∀ g ∈ l, insertOk g = true) →
      ∀ c, insertRun insertOk l c = some (c + l.length) := by
  intro l
  induction l with
  | nil => intro _ c; simp [insertRun]
  | cons e rest ih =>
    intro h c
    have he : insertOk e = true := h e (by simp)
    have hrest : ∀ g ∈ rest, insertOk g = true := fun g hg => h g (by simp [hg])
    simp only [insertRun, he, if_pos]
    rw [ih hrest (c + 1)]
    congr 1
    simp only [List.length_cons]
    omega

/-- Running the insertion loop over drafts where one insert raises yields
`none` (the exception aborts the loop). -/
lemma insertRun_abort (insertOk : Json → Bool) (e : Json) (post : List Json)
    (he : insertOk e = false) :
    ∀ (pre : List Json), (∀ g ∈ pre, insertOk g = true) →
      ∀ c, insertRun insertOk (pre ++ e :: post) c = none := by
  intro pre
  induction pre with
  | nil => intro _ c; simp [insertRun, he]
  | cons g rest ih =>
    intro h c
    have hg : insertOk g = true := h g (by simp)
    have hrest : ∀ x ∈ rest, insertOk x = true := fun x hx => h x (by simp [hx])
    simp only [List.cons_append, insertRun, hg, if_pos]
    exact ih hrest (c + 1)

/-- Uploading a list of files that all upload cleanly deletes all of them. -/
lemma archiveFiles_complete (ok : Chars → Bool) :
    ∀ (files : List Chars), (archiveFiles ok files).2 = true →
      (archiveFiles ok files).1 = [] := by
  intro files
  induction files with
  | nil => intro _; rfl
  | cons f rest ih =>
    intro h
    rcases hok : ok f with _ | _
    · simp [archiveFiles, hok] at h
    · simp only [archiveFiles, hok, if_pos] at h ⊢
      exact ih h

/-- Uploading a list of files whose first failure is `f` stops there,
leaving `f` and every later file on local storage. -/
lemma archiveFiles_abort (ok : Chars → Bool) (f : Chars) (post : List Chars)
    (hf : ok f = false) :
    ∀ (pre : List Chars), (∀ g ∈ pre, ok g = true) →
      archiveFiles ok (pre ++ f :: post) = (f :: post, false) := by
  intro pre
  induction pre with
  | nil => intro _; simp [archiveFiles, hf]
  | cons g rest ih =>
    intro h
    have hg : ok g = true := h g (by simp)
    have hrest : ∀ x ∈ rest, ok x = true := fun x hx => h x (by simp [hx])
    simp only [List.cons_append, archiveFiles, hg, if_pos]
    exact ih hrest

/-- Looking a user up after updating that user's entry in place finds the
updated session. -/
lemma lookup_map_update (uid : Nat) (t fp : Option Chars) :
    ∀ (l : Sessions) (s : Session), l.lookup uid = some s →
      (l.map (fun e => if e.1 = uid then (e.1, appendContent e.2 t fp) else e)).lookup uid
        = some (appendContent s t fp) := by
  intro l
  induction l with
  | nil => intro s h; simp [List.lookup] at h
  | cons hd tl ih =>
    intro s h
    rcases hd with ⟨k, v⟩
    by_cases hkz : k = uid
    · subst hkz
      have hv : v = s := by simpa [List.lookup] using h
      subst hv
      rw [List.map_cons, if_pos rfl]
      simp [List.lookup]
    · have hbe : (uid == k) = false := by
        simp [Ne.symm hkz]
      simp only [List.lookup, hbe] at h
      rw [List.map_cons, if_neg hkz]
      simp only [List.lookup, hbe]
      exact ih s h

/-! ## C1: calendar event materializer -/

/-- C1 counterexample: with three drafts whose second insert raises, the
materializer returns 0, not the count 1 of events inserted before the
failure claimed by the spec. -/
theorem add_calendar_events_counterexample :
    add_calendar_events true (fun j => !(j.hasField "boom".data))
        [Json.obj [], Json.obj [("boom".data, Json.null)], Json.obj []] = 0
    ∧ add_calendar_events true (fun j => !(j.hasField "boom".data))
        [Json.obj [], Json.obj [("boom".data, Json.null)], Json.obj []] ≠ 1 := by
  have h0 : add_calendar_events true (fun j => !(j.hasField "boom".data))
      [Json.obj [], Json.obj [("boom".data, Json.null)], Json.obj []] = 0 := rfl
  refine ⟨h0, ?_⟩
  rw [h0]
  omega

/-- C1 (amended): the materializer is a no-op returning 0 on an empty
draft list; when an insertion raises, the exception is caught inside
`add_calendar_events` (not re-raised, so the archival already performed
is unaffected), the remaining insertions are aborted, and the function
returns 0 — not the count of events inserted before the failure; when
every insertion succeeds it returns the number of drafts. -/
theorem add_calendar_events_spec (svcOk : Bool) (insertOk : Json → Bool)
    (events pre post : List Json) (e : Json)
    (hpre : ∀ g ∈ pre, insertOk g = true) (he : insertOk e = false)
    (hall : ∀ g ∈ events, insertOk g = true) :
    add_calendar_events svcOk insertOk [] = 0
    ∧ add_calendar_events svcOk insertOk (pre ++ e :: post) = 0
    ∧ (svcOk = true → add_calendar_events svcOk insertOk events = events.length) := by
  refine ⟨rfl, ?_, ?_⟩
  · have habort := insertRun_abort insertOk e post he pre hpre 0
    rcases svcOk with _ | _ <;>
      simp [add_calendar_events, habort, List.isEmpty_iff]
  · intro hsvc
    subst hsvc
    rcases hev : events with _ | ⟨x, xs⟩
    · rfl
    · have hrun := insertRun_all insertOk events hall 0
      rw [hev] at hrun
      simp [add_calendar_events, hrun, List.isEmpty_iff]

/-- Witness for C1's amended theorem at concrete inputs. -/
theorem add_calendar_events_spec_witness :
    add_calendar_events true (fun j => !(j.hasField "boom".data)) [] = 0
    ∧ add_calendar_events true (fun j => !(j.hasField "boom".data))
        ([Json.obj []] ++ Json.obj [("boom".data, Json.null)] :: [Json.obj []]) = 0
    ∧ add_calendar_events true (fun j => !(j.hasField "boom".data)) [Json.null] = 1 := by
  have h := add_calendar_events_spec true (fun j => !(j.hasField "boom".data))
    [Json.null] [Json.obj []] [Json.obj []] (Json.obj [("boom".data, Json.null)])
    (by intro g hg; simp at hg; subst hg; rfl) rfl
    (by intro g hg; simp at hg; subst hg; rfl)
  exact ⟨h.1, h.2.1, by simpa using h.2.2 rfl⟩

/-! ## C2: retry wrapper and the "end" pipeline's analysis step -/

/-- C2 counterexample: even when the underlying analysis call raises on
every attempt, the "end" pipeline's analysis step
`retry(lambda: analyze_batch_content(...))` succeeds on the first attempt
with the invented fallback result, because `analyze_batch_content`
swallows the exception; the pipeline never observes a terminal error. -/
theorem retry_pipeline_counterexample :
    retry (fun _ => Except.ok (analyze_batch_content (fun _ => none) "c".data
        GenOutcome.raised)) 3 2
      = (Except.ok (fallbackErrorResult "c".data), 0) := rfl

/-- C2 (amended): the retry wrapper makes up to 3 attempts with a fixed
2-second delay after each failed attempt, returning the first success
and raising a terminal `RuntimeError` when all attempts fail; however an
exception raised by the underlying analysis call is caught inside
`analyze_batch_content`, which returns a fallback result, so the "end"
pipeline's `retry` call succeeds on its first attempt with that invented
fallback instead of aborting. -/
theorem retry_spec (α : Type) (f g k : Nat → Except Chars α) (a b : α)
    (p : Chars → Option Json) (ctx : Chars)
    (hfail : ∀ i, i < 3 → ∃ e, f i = Except.error e)
    (hg0 : ∃ e, g 0 = Except.error e) (hg1 : g 1 = Except.ok a)
    (hk0 : k 0 = Except.ok b) :
    retry f 3 2 = (Except.error "All retries failed".data, 6)
    ∧ retry g 3 2 = (Except.ok a, 2)
    ∧ retry k 3 2 = (Except.ok b, 0)
    ∧ retry (fun _ => Except.ok (analyze_batch_content p ctx .raised)) 3 2
        = (Except.ok (fallbackErrorResult ctx), 0) := by
  obtain ⟨e0, h0⟩ := hfail 0 (by omega)
  obtain ⟨e1, h1⟩ := hfail 1 (by omega)
  obtain ⟨e2, h2⟩ := hfail 2 (by omega)
  obtain ⟨e3, h3⟩ := hg0
  refine ⟨?_, ?_, ?_, ?_⟩
  · simp [retry, retryRunAux, h0, h1, h2]
  · simp [retry, retryRunAux, h3, hg1]
  · simp [retry, retryRunAux, hk0]
  · simp [retry, retryRunAux, analyze_batch_content]

/-- Witness for C2's amended theorem at concrete inputs. -/
theorem retry_spec_witness :
    retry (fun _ => (Except.error "x".data : Except Chars Nat)) 3 2
      = (Except.error "All retries failed".data, 6)
    ∧ retry (fun i => if i = 0 then (Except.error "x".data : Except Chars Nat)
        else Except.ok 5) 3 2 = (Except.ok 5, 2)
    ∧ retry (fun _ => (Except.ok 7 : Except Chars Nat)) 3 2 = (Except.ok 7, 0)
    ∧ retry (fun _ => Except.ok (analyze_batch_content (fun _ => none) "c".data
        .raised)) 3 2 = (Except.ok (fallbackErrorResult "c".data), 0) :=
  retry_spec Nat (fun _ => Except.error "x".data)
    (fun i => if i = 0 then Except.error "x".data else Except.ok 5)
    (fun _ => Except.ok 7) 5 7 (fun _ => none) "c".data
    (fun _ _ => ⟨"x".data, rfl⟩) ⟨"x".data, rfl⟩ rfl rfl

/-! ## C6: archiver file cleanup -/

/-- C6: every file uploaded before a failure is deleted; a raising upload
propagates out of the loop, leaving the failing file and every file not
yet uploaded on local storage; and after a run in which the loop
completes, no file of the session's attachment paths remains on local
storage. -/
theorem archiver_cleanup (ok : Chars → Bool) (pre post : List Chars) (f : Chars)
    (hpre : ∀ g ∈ pre, ok g = true) (hf : ok f = false) :
    archiveFiles ok (pre ++ f :: post) = (f :: post, false)
    ∧ ∀ (ok2 : Chars → Bool) (files : List Chars),
        (archiveFiles ok2 files).2 = true → (archiveFiles ok2 files).1 = [] :=
  ⟨archiveFiles_abort ok f post hf pre hpre, archiveFiles_complete⟩

/-- Witness for C6 at concrete inputs. -/
theorem archiver_cleanup_witness :
    archiveFiles (fun q => !(q == "b".data)) (["a".data] ++ "b".data :: ["c".data])
      = ("b".data :: ["c".data], false)
    ∧ (archiveFiles (fun _ => true) ["a".data, "b".data]).1 = [] := by
  have h := archiver_cleanup (fun q => !(q == "b".data)) ["a".data] ["c".data]
    "b".data (by decide) (by decide)
  exact ⟨h.1, h.2 (fun _ => true) ["a".data, "b".data] rfl⟩

/-! ## C9: analyzer output shape -/

/-- Whether a result carries all five fields of the analysis schema. -/
def hasAllFields (j : Json) : Bool :=
  j.hasField "source".data && j.hasField "category".data
    && j.hasField "summary".data && j.hasField "tags".data
    && j.hasField "calendar_events".data

/-- C9 counterexample: when the service output is the valid JSON `{}`,
the analyzer's success path returns the parsed value verbatim — an
object carrying none of the five schema fields, so downstream consumers
cannot rely on the shape. -/
theorem analyzer_shape_counterexample :
    analyze_batch_content (fun t => if t = "{}".data then some (.obj []) else none)
        "c".data (.output "{}".data) = .obj []
    ∧ hasAllFields (Json.obj []) = false := ⟨rfl, rfl⟩

/-- C9 (amended): the two fallback paths (blocked/empty output and
malformed output, the latter yielding the same dict as a raising call)
carry exactly the fields source, category, summary, tags and
calendar_events; the success path instead returns the JSON parsed from
the service output verbatim, which carries those fields only if the
service output does. -/
theorem analyzer_shape (ctx : Chars) (p : Chars → Option Json) (t : Chars) (j : Json)
    (h : p (clean_json_text t) = some j) :
    hasAllFields (fallbackErrorResult ctx) = true
    ∧ hasAllFields (blockedResult ctx) = true
    ∧ analyze_batch_content p ctx (.output t) = j
    ∧ analyze_batch_content p ctx .raised = fallbackErrorResult ctx
    ∧ analyze_batch_content p ctx .blocked = blockedResult ctx := by
  refine ⟨rfl, rfl, ?_, rfl, rfl⟩
  simp [analyze_batch_content, h]

/-- Witness for C9's amended theorem at concrete inputs. -/
theorem analyzer_shape_witness :
    hasAllFields (fallbackErrorResult "c".data) = true
    ∧ hasAllFields (blockedResult "c".data) = true
    ∧ analyze_batch_content (fun _ => some Json.null) "c".data (.output "x".data)
        = Json.null
    ∧ analyze_batch_content (fun _ => some Json.null) "c".data .raised
        = fallbackErrorResult "c".data
    ∧ analyze_batch_content (fun _ => some Json.null) "c".data .blocked
        = blockedResult "c".data :=
  analyzer_shape "c".data (fun _ => some Json.null) "x".data Json.null rfl

/-! ## C10: appending content to a session -/

/-- C10: `add_to_session` returns `False` and mutates nothing for a user
without a session; for a user with a session it returns `True` and
appends the text only when it is a non-empty string and the file path
only when it is non-empty, so an empty text message buffered during
recording never appears in the session's text sequence. -/
theorem add_to_session_spec (sessions : Sessions) (uid : Nat) (t fp : Option Chars)
    (s : Session) (x : Chars) (hx : x ≠ []) :
    (sessions.lookup uid = none → add_to_session sessions uid t fp = (false, sessions))
    ∧ (sessions.lookup uid = some s →
        (add_to_session sessions uid t fp).1 = true
        ∧ (add_to_session sessions uid t fp).2.lookup uid
            = some (appendContent s t fp))
    ∧ (appendContent s (some x) fp).texts = s.texts ++ [x]
    ∧ (appendContent s (some []) fp).texts = s.texts
    ∧ (appendContent s none fp).texts = s.texts
    ∧ (appendContent s t (some x)).files = s.files ++ [x]
    ∧ (appendContent s t (some [])).files = s.files
    ∧ (appendContent s t none).files = s.files := by
  have hxe : x.isEmpty = false := by simpa using hx
  refine ⟨?_, ?_, ?_, ?_, ?_, ?_, ?_, ?_⟩
  · intro h
    simp [add_to_session, h]
  · intro h
    constructor
    · simp [add_to_session, h]
    · have hmap := lookup_map_update uid t fp sessions s h
      simp only [add_to_session, h, Option.isSome_some, if_pos]
      exact hmap
  · simp [appendContent, hxe]
  · simp [appendContent]
  · simp [appendContent]
  · simp [appendContent, hxe]
  · simp [appendContent]
  · simp [appendContent]

/-- Witness for C10 at concrete inputs. -/
theorem add_to_session_spec_witness :
    add_to_session [] 0 (some "a".data) none = (false, [])
    ∧ (add_to_session [(0, ⟨true, "c".data, [], []⟩)] 0 (some "a".data) none).1 = true
    ∧ (add_to_session [(0, ⟨true, "c".data, [], []⟩)] 0 (some "a".data) none).2.lookup 0
        = some (appendContent ⟨true, "c".data, [], []⟩ (some "a".data) none)
    ∧ (appendContent ⟨true, "c".data, [], []⟩ (some "a".data) none).texts
        = ([] : List Chars) ++ ["a".data]
    ∧ (appendContent ⟨true, "c".data, [], []⟩ (some []) none).texts = [] := by
  have h := add_to_session_spec [(0, ⟨true, "c".data, [], []⟩)] 0 (some "a".data) none
    ⟨true, "c".data, [], []⟩ "a".data (by decide)
  have h2 := add_to_session_spec [(0, ⟨true, "c".data, [], []⟩)] 0 (some []) none
    ⟨true, "c".data, [], []⟩ "a".data (by decide)
  have hno := (add_to_session_spec ([] : Sessions) 0 (some "a".data) none
    ⟨true, "c".data, [], []⟩ "a".data (by decide)).1 rfl
  exact ⟨hno, (h.2.1 rfl).1, (h.2.1 rfl).2, h.2.2.1, h2.2.2.2.1⟩

/-! ## More helper lemmas (strings) -/

/-- Any list is a prefix of itself followed by anything. -/
lemma isPrefixOf_append_self : ∀ (n post : Chars), n.isPrefixOf (n ++ post) = true := by
  intro n post
  simp [List.isPrefixOf_iff_prefix]

/-- A substring test succeeds on any occurrence. -/
lemma hasSub_append_self : ∀ (pre n post : Chars), hasSub n (pre ++ (n ++ post)) = true := by
  intro pre
  induction pre with
  | nil =>
    intro n post
    simp only [List.nil_append]
    rcases h : n ++ post with _ | ⟨c, t⟩
    · have hn : n = [] := by
        rcases List.append_eq_nil.1 h with ⟨h1, _⟩
        exact h1
      subst hn
      rfl
    · have hp := isPrefixOf_append_self n post
      rw [h] at hp
      simp [hasSub, hp]
  | cons c t ih =>
    intro n post
    simp only [List.cons_append, hasSub]
    simp [ih n post]

/-- A substring test succeeds on a final occurrence. -/
lemma hasSub_append_last (pre n : Chars) : hasSub n (pre ++ n) = true := by
  have h := hasSub_append_self pre n []
  simpa using h

/-- Splitting at a pattern standing at the front removes exactly it. -/
lemma splitSub_self_append (pat rest : Chars) (hne : pat ≠ []) :
    splitSub? pat (pat ++ rest) = some ([], rest) := by
  rcases pat with _ | ⟨c, p⟩
  · exact absurd rfl hne
  · have hp := isPrefixOf_append_self (c :: p) rest
    simp only [List.cons_append, splitSub?]
    rw [if_pos (by simp only [List.append_eq] at hp ⊢; exact hp)]
    simp [List.append_eq, List.drop_left]

/-- Splitting backtick-free text followed by the fence marker finds the
marker at the very end. -/
lemma splitSub_fence_last : ∀ (inner : Chars), (∀ c ∈ inner, c ≠ '`') →
    splitSub? fenceMarker (inner ++ fenceMarker) = some (inner, []) := by
  intro inner
  induction inner with
  | nil =>
    intro _
    have h := splitSub_self_append fenceMarker [] (by decide)
    simpa using h
  | cons c t ih =>
    intro h
    have hc : c ≠ '`' := h c (by simp)
    have hbe : (('`' : Char) == c) = false := by
      simp [Ne.symm hc]
    have hpre : fenceMarker.isPrefixOf (c :: (t ++ fenceMarker)) = false := by
      show (('`' :: '`' :: '`' :: []).isPrefixOf (c :: (t ++ fenceMarker))) = false
      simp [List.isPrefixOf_cons₂, hbe]
    simp only [List.cons_append, splitSub?]
    rw [if_neg (by simp [hpre])]
    simp only [List.append_eq]
    rw [ih (fun x hx => h x (by simp [hx]))]

/-- Stripping leaves a list alone when both its ends are non-space. -/
lemma pyStrip_eq_self (l : Chars)
    (h1 : ∀ c, l.head? = some c → isSpaceChar c = false)
    (h2 : ∀ c, l.getLast? = some c → isSpaceChar c = false) :
    pyStrip l = l := by
  have hd : l.dropWhile isSpaceChar = l := by
    rcases l with _ | ⟨c, t⟩
    · rfl
    · have := h1 c rfl
      simp [List.dropWhile_cons, this]
  have hr : l.reverse.dropWhile isSpaceChar = l.reverse := by
    rcases hrev : l.reverse with _ | ⟨c, t⟩
    · rfl
    · have hlast : l.getLast? = some c := by
        rw [← List.head?_reverse, hrev]
        rfl
      have := h2 c hlast
      simp [List.dropWhile_cons, this]
  simp [pyStrip, hd, hr]

/-! ## C3: analyzer fallback on malformed output -/

/-- Field access in an analysis result. -/
def Json.getField (j : Json) (k : Chars) : Option Json :=
  match j with
  | .obj fields => fields.lookup k
  | _ => none

/-- C3 counterexample: on a non-JSON payload wrapped in fence markers the
analyzer returns the fixed fallback dict; the very same dict is returned
for a different raw output, and its summary does not contain the raw
payload — the fallback carries no excerpt of the raw output. -/
theorem analyzer_fallback_counterexample :
    analyze_batch_content (fun _ => none) "c".data
        (.output "```\nhello-xyz\n```".data) = fallbackErrorResult "c".data
    ∧ analyze_batch_content (fun _ => none) "c".data
        (.output "```\nother-output\n```".data) = fallbackErrorResult "c".data
    ∧ hasSub "hello-xyz".data "AI 分析失敗，請檢查 Log".data = false :=
  ⟨rfl, rfl, rfl⟩

/-- C3 (amended): when structured parsing of the (fence-cleaned) output
fails — including a non-JSON payload wrapped in fence markers, whose
inner text `clean_json_text` extracts — the analyzer never raises past
its boundary and returns a typed fallback result of category `錯誤`
whose summary is the fixed string `AI 分析失敗，請檢查 Log` pointing at
the logs, not a truncated excerpt of the raw output. -/
theorem analyzer_fallback (p : Chars → Option Json) (ctx t inner : Chars)
    (hparse : p (clean_json_text t) = none)
    (h1 : ∀ c ∈ inner, c ≠ '`')
    (h2 : ("json".data).isPrefixOf (inner ++ fenceMarker) = false) :
    analyze_batch_content p ctx (.output t) = fallbackErrorResult ctx
    ∧ clean_json_text (fenceMarker ++ (inner ++ fenceMarker)) = pyStrip inner
    ∧ (fallbackErrorResult ctx).getField "category".data = some (.str "錯誤".data)
    ∧ (fallbackErrorResult ctx).getField "summary".data
        = some (.str "AI 分析失敗，請檢查 Log".data) := by
  refine ⟨?_, ?_, rfl, rfl⟩
  · simp [analyze_batch_content, hparse]
  · have hstrip : pyStrip (fenceMarker ++ (inner ++ fenceMarker))
        = fenceMarker ++ (inner ++ fenceMarker) := by
      apply pyStrip_eq_self
      · intro c hc
        simp only [fenceMarker] at hc
        simp only [List.cons_append, List.head?_cons, Option.some.injEq] at hc
        subst hc
        rfl
      · intro c hc
        rw [← List.head?_reverse] at hc
        simp only [List.reverse_append, fenceMarker] at hc
        simp only [List.reverse_cons, List.reverse_nil, List.nil_append,
          List.append_assoc, List.cons_append, List.nil_append,
          List.head?_cons, Option.some.injEq] at hc
        subst hc
        rfl
    have hsub : hasSub fenceMarker (fenceMarker ++ (inner ++ fenceMarker)) = true := by
      have h := hasSub_append_self [] fenceMarker (inner ++ fenceMarker)
      simpa using h
    have hsplit1 : splitSub? fenceMarker (fenceMarker ++ (inner ++ fenceMarker))
        = some ([], inner ++ fenceMarker) :=
      splitSub_self_append fenceMarker (inner ++ fenceMarker) (by decide)
    have hsplit2 : splitSub? fenceMarker (inner ++ fenceMarker) = some (inner, []) :=
      splitSub_fence_last inner h1
    simp only [clean_json_text, hstrip, hsub, hsplit1]
    simp [h2, hsplit2]

/-- Witness for C3's amended theorem at concrete inputs. -/
theorem analyzer_fallback_witness :
    analyze_batch_content (fun _ => none) "c".data (.output "```\nhello\n```".data)
      = fallbackErrorResult "c".data
    ∧ clean_json_text (fenceMarker ++ ("\nhello\n".data ++ fenceMarker))
      = pyStrip "\nhello\n".data
    ∧ (fallbackErrorResult "c".data).getField "category".data
      = some (.str "錯誤".data)
    ∧ (fallbackErrorResult "c".data).getField "summary".data
      = some (.str "AI 分析失敗，請檢查 Log".data) :=
  analyzer_fallback (fun _ => none) "c".data "```\nhello\n```".data "\nhello\n".data
    rfl (by decide) (by decide)

/-- Looking the user up after `add_to_session` finds the appended session. -/
lemma add_to_session_lookup (sessions : Sessions) (uid : Nat) (t fp : Option Chars)
    (s : Session) (h : sessions.lookup uid = some s) :
    (add_to_session sessions uid t fp).2.lookup uid = some (appendContent s t fp) := by
  simp only [add_to_session, h, Option.isSome_some, if_pos]
  exact lookup_map_update uid t fp sessions s h

/-! ## C5: transcript synthesis -/

/-- C5 counterexample: the synthesized transcript does not embed the tag
list — for tags `["tagxyz"]` the transcript of a one-line session is a
fixed text without the tag, while the upload description does carry it. -/
theorem transcript_tags_counterexample :
    transcriptContent "c".data "s".data ["hello".data]
      = "情境：c\n摘要：s\n--------------------\nhello".data
    ∧ hasSub "tagxyz".data (transcriptContent "c".data "s".data ["hello".data]) = false
    ∧ hasSub "tagxyz".data (fullDesc "s".data ["tagxyz".data]) = true := by
  refine ⟨by decide, by decide, by decide⟩

/-- C5 (amended): for a session with a non-empty text buffer the Archiver
synthesizes exactly one transcript file embedding the context label, the
summary, a separator, and the raw concatenated text lines in arrival
order — but not the tag list; for inputs text1, attachment1, text2 the
buffered texts are text1 then text2 in that order, independent of
attachment1; the file is uploaded with a description containing the
summary and the joined tags. -/
theorem transcript_synthesis (now uid : Nat) (s : Session)
    (ctx summary t1 a1 t2 : Chars) (tags texts : List Chars)
    (ht1 : t1 ≠ []) (ht2 : t2 ≠ []) (ha1 : a1 ≠ []) (htexts : texts ≠ []) :
    ((add_to_session (add_to_session (add_to_session [(uid, s)] uid (some t1) none).2
        uid none (some a1)).2 uid (some t2) none).2).lookup uid
      = some ⟨s.active, s.context, s.texts ++ [t1, t2], s.files ++ [a1]⟩
    ∧ textLogUploads now ctx summary tags texts
        = [⟨logFilename now, transcriptContent ctx summary texts, fullDesc summary tags⟩]
    ∧ transcriptContent ctx summary [t1, t2]
        = "情境：".data ++ ctx ++ "\n".data ++ "摘要：".data ++ summary ++ "\n".data
          ++ List.replicate 20 '-' ++ "\n".data ++ (t1 ++ "\n".data ++ t2)
    ∧ hasSub summary (fullDesc summary tags) = true
    ∧ hasSub (joinWith ", ".data tags) (fullDesc summary tags) = true := by
  have hx1 : t1.isEmpty = false := by simpa using ht1
  have hx2 : t2.isEmpty = false := by simpa using ht2
  have hxa : a1.isEmpty = false := by simpa using ha1
  have hxt : texts.isEmpty = false := by simpa using htexts
  refine ⟨?_, ?_, ?_, ?_, ?_⟩
  · have l0 : ([(uid, s)] : Sessions).lookup uid = some s := by
      simp [List.lookup]
    have e1 := add_to_session_lookup [(uid, s)] uid (some t1) none s l0
    have e2 := add_to_session_lookup _ uid none (some a1) _ e1
    have e3 := add_to_session_lookup _ uid (some t2) none _ e2
    rw [e3]
    simp [appendContent, hx1, hx2, hxa]
  · simp [textLogUploads, hxt]
  · simp [transcriptContent, joinWith]
  · have h := hasSub_append_self "AI摘要: ".data summary
      ("\n標籤: ".data ++ joinWith ", ".data tags)
    simpa [fullDesc] using h
  · have h := hasSub_append_last ("AI摘要: ".data ++ summary ++ "\n標籤: ".data)
      (joinWith ", ".data tags)
    simpa [fullDesc] using h

/-- Witness for C5's amended theorem at concrete inputs. -/
theorem transcript_synthesis_witness :
    ((add_to_session (add_to_session (add_to_session
          [(0, (⟨true, "k".data, [], []⟩ : Session))] 0 (some "x".data) none).2
        0 none (some "p".data)).2 0 (some "y".data) none).2).lookup 0
      = some ⟨true, "k".data, ["x".data, "y".data], ["p".data]⟩
    ∧ textLogUploads 1 "c".data "s".data ["g".data] ["x".data]
        = [⟨logFilename 1, transcriptContent "c".data "s".data ["x".data],
            fullDesc "s".data ["g".data]⟩]
    ∧ transcriptContent "c".data "s".data ["x".data, "y".data]
        = "情境：".data ++ "c".data ++ "\n".data ++ "摘要：".data ++ "s".data
          ++ "\n".data ++ List.replicate 20 '-' ++ "\n".data
          ++ ("x".data ++ "\n".data ++ "y".data)
    ∧ hasSub "s".data (fullDesc "s".data ["g".data]) = true
    ∧ hasSub (joinWith ", ".data ["g".data]) (fullDesc "s".data ["g".data]) = true := by
  have h := transcript_synthesis 1 0 ⟨true, "k".data, [], []⟩ "c".data "s".data
    "x".data "p".data "y".data ["g".data] ["x".data]
    (by decide) (by decide) (by decide) (by decide)
  simpa using h

/-! ## C7: command recognition -/

/-- C7 counterexample: the end command is matched by equality, not by
prefix — the text `結束了` has the command word `結束` as a prefix yet is
recognized as no command at all (it falls through to content buffering). -/
theorem command_prefix_counterexample :
    parseCmd "結束了".data = none
    ∧ ("結束".data).isPrefixOf "結束了".data = true := by
  refine ⟨by decide, by decide⟩

/-- C7 (amended): the start command is a case-insensitive prefix match on
`開始`/`start` and the remainder after the first space-split is taken
verbatim as the context label, defaulting to `未命名對話` when absent;
the end command `結束`/`end` is a case-insensitive exact match, not a
prefix match. -/
theorem command_recognition (rest : Chars)
    (h : pyStrip ("start ".data ++ rest) = "start ".data ++ rest) :
    parseCmd ("start ".data ++ rest) = some (Cmd.start rest)
    ∧ parseCmd "開始".data = some (Cmd.start "未命名對話".data)
    ∧ parseCmd "開始 情境A".data = some (Cmd.start "情境A".data)
    ∧ parseCmd "Start abc".data = some (Cmd.start "abc".data)
    ∧ parseCmd "END".data = some Cmd.finish
    ∧ parseCmd "結束".data = some Cmd.finish
    ∧ parseCmd "結束了".data = none := by
  refine ⟨?_, by decide, by decide, by decide, by decide, by decide, by decide⟩
  simp only [parseCmd]
  rw [h]
  simp [pyLower, splitSpace1, List.isPrefixOf_cons₂]

/-- Witness for C7's amended theorem at concrete inputs. -/
theorem command_recognition_witness :
    parseCmd ("start ".data ++ "xyz".data) = some (Cmd.start "xyz".data)
    ∧ parseCmd "結束了".data = none :=
  ⟨(command_recognition "xyz".data (by decide)).1,
   (command_recognition "xyz".data (by decide)).2.2.2.2.2.2⟩

/-! ## C8: misuse handling -/

/-- C8 counterexample: an attachment received while the user is not
recording is neither downloaded nor answered — no reminder reply is sent
(contrast with a non-command text, which does get the reminder). -/
theorem misuse_attachment_counterexample :
    handle_message [] 0 (.img 5) = ⟨[], [], none⟩
    ∧ handle_message [] 0 (.txt "哈囉".data) = ⟨[], [.reply reminderReplyText], none⟩ := by
  refine ⟨by decide, by decide⟩

/-- C8 (amended): misuse is handled as a normal reply and never as an
error: an end command with no active session yields the informational
reply `目前沒有進行中的錄製。`; a non-command text received while not
recording yields the reminder to issue `開始`; an attachment received
while not recording is ignored without being downloaded (so there is
nothing to delete) and without any reply. -/
theorem misuse_handling (sessions : Sessions) (uid : Nat) (raw : Chars) (mid : Nat)
    (hno : sessions.lookup uid = none) :
    handle_message sessions uid (.txt "結束".data)
      = ⟨sessions, [.reply noActiveReplyText], none⟩
    ∧ (parseCmd raw = none →
        handle_message sessions uid (.txt raw)
          = ⟨sessions, [.reply reminderReplyText], none⟩)
    ∧ handle_message sessions uid (.img mid) = ⟨sessions, [], none⟩
    ∧ handle_message sessions uid (.doc mid) = ⟨sessions, [], none⟩ := by
  have hfin : parseCmd "結束".data = some Cmd.finish := by decide
  refine ⟨?_, ?_, ?_, ?_⟩
  · simp [handle_message, hfin, end_session, hno]
  · intro hp
    simp [handle_message, hp, contentStep, get_session, hno]
  · simp [handle_message, contentStep, get_session, hno]
  · simp [handle_message, contentStep, get_session, hno]

/-- Witness for C8's amended theorem at concrete inputs. -/
theorem misuse_handling_witness :
    handle_message [] 0 (.txt "結束".data) = ⟨[], [.reply noActiveReplyText], none⟩
    ∧ handle_message [] 0 (.txt "哈囉".data) = ⟨[], [.reply reminderReplyText], none⟩
    ∧ handle_message [] 0 (.img 5) = ⟨[], [], none⟩
    ∧ handle_message [] 0 (.doc 6) = ⟨[], [], none⟩ := by
  have h := misuse_handling [] 0 "哈囉".data 5 rfl
  have h2 := misuse_handling [] 0 "哈囉".data 6 rfl
  exact ⟨h.1, h.2.1 (by decide), h.2.2.1, h2.2.2.2⟩

/-! ## C4: taxonomy resolver idempotence -/

/-- Well-formedness of a Drive state: the fresh-id counter dominates the
root id and every entry's id and parent, and no folder is its own parent
(all true of real Drive states, where ids are allocated fresh). -/
def DriveWF (s : DriveState) (rootId : Nat) : Prop :=
  rootId < s.nextId
  ∧ (∀ f ∈ s.entries, f.id < s.nextId)
  ∧ (∀ f ∈ s.entries, f.parent < s.nextId)
  ∧ (∀ f ∈ s.entries, f.id ≠ f.parent)

/-- Folder queries distribute over concatenated file lists. -/
lemma folderQuery_append (l1 l2 : List DriveEntry) (p : Nat) (nm : Chars) :
    folderQuery (l1 ++ l2) p nm = folderQuery l1 p nm ++ folderQuery l2 p nm := by
  simp [folderQuery, List.filter_append]

/-- Membership in a folder query gives the filter facts. -/
lemma mem_folderQuery (entries : List DriveEntry) (p : Nat) (nm : Chars)
    (e : DriveEntry) (h : e ∈ folderQuery entries p nm) :
    e ∈ entries ∧ e.name = nm ∧ e.isFolder = true ∧ e.parent = p ∧ e.trashed = false := by
  simp only [folderQuery, List.mem_filter, Bool.and_eq_true, beq_iff_eq,
    Bool.not_eq_true'] at h
  exact ⟨h.1, h.2.1.1.1, h.2.1.1.2, h.2.1.2, h.2.2⟩

/-- No folder under a parent id that nothing points at. -/
lemma folderQuery_nil_parent (entries : List DriveEntry) (p : Nat) (nm : Chars)
    (h : ∀ f ∈ entries, f.parent ≠ p) : folderQuery entries p nm = [] := by
  apply List.filter_eq_nil_iff.2
  intro e he
  have hp : (e.parent == p) = false := by simp [h e he]
  simp [hp]

/-- The query finds a single matching entry. -/
lemma folderQuery_single_match (e : DriveEntry) (p : Nat) (nm : Chars)
    (h1 : e.name = nm) (h2 : e.isFolder = true) (h3 : e.parent = p)
    (h4 : e.trashed = false) : folderQuery [e] p nm = [e] := by
  simp [folderQuery, List.filter, h1, h2, h3, h4]

/-- The query skips a single entry under a different parent. -/
lemma folderQuery_single_miss (e : DriveEntry) (p : Nat) (nm : Chars)
    (h : e.parent ≠ p) : folderQuery [e] p nm = [] := by
  have hp : (e.parent == p) = false := by simp [h]
  simp [folderQuery, List.filter, hp]

/-- Resolver step when the query finds a folder: first match's id, state
unchanged. -/
lemma gocf_found (s : DriveState) (p : Nat) (nm : Chars) (f : DriveEntry)
    (l : List DriveEntry) (h : folderQuery s.entries p nm = f :: l) :
    get_or_create_folder s p nm = (f.id, s) := by
  simp [get_or_create_folder, h]

/-- Resolver step when the query is empty: fresh folder created. -/
lemma gocf_create (s : DriveState) (p : Nat) (nm : Chars)
    (h : folderQuery s.entries p nm = []) :
    get_or_create_folder s p nm
      = (s.nextId, ⟨s.entries ++ [⟨s.nextId, nm, p, true, false⟩], s.nextId + 1⟩) := by
  simp [get_or_create_folder, h]

/-- Two-level resolution unfolded. -/
lemma gtfi_eq (s : DriveState) (root : Nat) (src cat : Chars) :
    get_target_folder_id s root src cat
      = get_or_create_folder (get_or_create_folder s root src).2
          (get_or_create_folder s root src).1 cat := rfl

/-- C4: on a well-formed Drive state, resolving the same (root, source,
category) triple twice returns the same category folder id both times and
the second call creates no folder (the state is unchanged); each
`get_or_create` step searches non-trashed folders named `name` directly
under `parent`, returns the first match's id if any exist, and otherwise
creates a folder and returns its new id — as the defining equations
`gocf_found`/`gocf_create` show. -/
theorem taxonomy_resolver_idempotent (s : DriveState) (root : Nat) (src cat : Chars)
    (hwf : DriveWF s root) :
    get_target_folder_id (get_target_folder_id s root src cat).2 root src cat
      = get_target_folder_id s root src cat := by
  obtain ⟨hroot, hid, hpar, hself⟩ := hwf
  rcases hq1 : folderQuery s.entries root src with _ | ⟨f, l⟩
  · -- source folder missing: both levels are created by the first call
    have g1 := gocf_create s root src hq1
    set e1 : DriveEntry := ⟨s.nextId, src, root, true, false⟩ with he1def
    set s1 : DriveState := ⟨s.entries ++ [e1], s.nextId + 1⟩ with hs1def
    have hq2 : folderQuery s1.entries s.nextId cat = [] := by
      show folderQuery (s.entries ++ [e1]) s.nextId cat = []
      rw [folderQuery_append]
      have ha : folderQuery s.entries s.nextId cat = [] :=
        folderQuery_nil_parent _ _ _ (fun g hg => by
          have := hpar g hg
          omega)
      have hb : folderQuery [e1] s.nextId cat = [] :=
        folderQuery_single_miss e1 _ _ (by
          show root ≠ s.nextId
          omega)
      rw [ha, hb]
      rfl
    have g2 := gocf_create s1 s.nextId cat hq2
    set e2 : DriveEntry := ⟨s1.nextId, cat, s.nextId, true, false⟩ with he2def
    set s2 : DriveState := ⟨s1.entries ++ [e2], s1.nextId + 1⟩ with hs2def
    have hcall1 : get_target_folder_id s root src cat = (s1.nextId, s2) := by
      rw [gtfi_eq, g1]
      exact g2
    have hq1b : folderQuery s2.entries root src = [e1] := by
      show folderQuery ((s.entries ++ [e1]) ++ [e2]) root src = [e1]
      rw [folderQuery_append, folderQuery_append]
      have ha : folderQuery [e1] root src = [e1] :=
        folderQuery_single_match e1 root src rfl rfl rfl rfl
      have hb : folderQuery [e2] root src = [] :=
        folderQuery_single_miss e2 _ _ (by
          show s.nextId ≠ root
          omega)
      rw [hq1, ha, hb]
      rfl
    have g1b := gocf_found s2 root src e1 [] hq1b
    have hq2b : folderQuery s2.entries s.nextId cat = [e2] := by
      show folderQuery ((s.entries ++ [e1]) ++ [e2]) s.nextId cat = [e2]
      rw [folderQuery_append, folderQuery_append]
      have ha : folderQuery s.entries s.nextId cat = [] :=
        folderQuery_nil_parent _ _ _ (fun g hg => by
          have := hpar g hg
          omega)
      have hb : folderQuery [e1] s.nextId cat = [] :=
        folderQuery_single_miss e1 _ _ (by
          show root ≠ s.nextId
          omega)
      have hc : folderQuery [e2] s.nextId cat = [e2] :=
        folderQuery_single_match e2 _ _ rfl rfl rfl rfl
      rw [ha, hb, hc]
      rfl
    have g2b := gocf_found s2 s.nextId cat e2 [] hq2b
    rw [hcall1]
    show get_target_folder_id s2 root src cat = (s1.nextId, s2)
    rw [gtfi_eq, g1b]
    exact g2b
  · -- source folder found
    have hfm : f ∈ folderQuery s.entries root src := by
      rw [hq1]
      exact List.mem_cons_self f l
    obtain ⟨hfe, hfn, hff, hfp, hft⟩ := mem_folderQuery _ _ _ f hfm
    have hfid : f.id ≠ root := by
      have h := hself f hfe
      rw [hfp] at h
      exact h
    have g1 := gocf_found s root src f l hq1
    rcases hq2 : folderQuery s.entries f.id cat with _ | ⟨g, l2⟩
    · -- category folder missing: created by the first call
      have g2 := gocf_create s f.id cat hq2
      set e2 : DriveEntry := ⟨s.nextId, cat, f.id, true, false⟩ with he2def
      set s2 : DriveState := ⟨s.entries ++ [e2], s.nextId + 1⟩ with hs2def
      have hcall1 : get_target_folder_id s root src cat = (s.nextId, s2) := by
        rw [gtfi_eq, g1]
        exact g2
      have hq1b : folderQuery s2.entries root src = f :: l := by
        show folderQuery (s.entries ++ [e2]) root src = f :: l
        rw [folderQuery_append]
        have hb : folderQuery [e2] root src = [] :=
          folderQuery_single_miss e2 _ _ (by
            show f.id ≠ root
            exact hfid)
        rw [hq1, hb]
        simp
      have g1b := gocf_found s2 root src f l hq1b
      have hq2b : folderQuery s2.entries f.id cat = [e2] := by
        show folderQuery (s.entries ++ [e2]) f.id cat = [e2]
        rw [folderQuery_append]
        have hc : folderQuery [e2] f.id cat = [e2] :=
          folderQuery_single_match e2 _ _ rfl rfl rfl rfl
        rw [hq2, hc]
        rfl
      have g2b := gocf_found s2 f.id cat e2 [] hq2b
      rw [hcall1]
      show get_target_folder_id s2 root src cat = (s.nextId, s2)
      rw [gtfi_eq, g1b]
      exact g2b
    · -- both levels found: the first call does not change the state
      have g2 := gocf_found s f.id cat g l2 hq2
      have hcall1 : get_target_folder_id s root src cat = (g.id, s) := by
        rw [gtfi_eq, g1]
        exact g2
      rw [hcall1]
      exact hcall1

/-- Witness for C4 at a concrete well-formed Drive state. -/
theorem taxonomy_resolver_idempotent_witness :
    get_target_folder_id
        (get_target_folder_id ⟨[], 1⟩ 0 "來源".data "分類".data).2 0 "來源".data "分類".data
      = get_target_folder_id ⟨[], 1⟩ 0 "來源".data "分類".data := by
  apply taxonomy_resolver_idempotent
  refine ⟨by decide, ?_, ?_, ?_⟩ <;> intro f hf <;> simp at hf

end LineDriveBot
